import Mathlib

/-!
Shallow embedding of the rule/message layer of the nftnl-rs repository
(src/nftnl/src/rule.rs over the nftnl-sys FFI bindings).

Native libnftnl rule objects are modelled as attribute maps plus an
expression list; machine integers are Nat with explicit `% 2 ^ w` at the
points where the Rust code casts.  The native allocator is modelled by an
`Option Nat` oracle (`none` models a null return, `some p` a fresh
pointer `p`).  Types that live in files of this repository outside src/
(Chain, Table, MsgType, the try_alloc macro, query.rs) are modelled from
the specification and say so in their doc comments.
-/

namespace Nftnl

/-- Netlink ABI constants from the libc crate (external collaborator):
message type opcodes of the nf_tables subsystem. -/
def NFT_MSG_NEWRULE : Nat := 6

/-- Netlink opcode for deleting a rule (libc crate constant). -/
def NFT_MSG_DELRULE : Nat := 8

/-- Netlink opcode for the GET request listing rules (libc crate constant). -/
def NFT_MSG_GETRULE : Nat := 7

/-- Netlink header flag NLM_F_ACK (libc crate constant). -/
def NLM_F_ACK : Nat := 4

/-- Netlink header flag NLM_F_EXCL (libc crate constant). -/
def NLM_F_EXCL : Nat := 0x200

/-- Netlink header flag NLM_F_CREATE (libc crate constant). -/
def NLM_F_CREATE : Nat := 0x400

/-- Netlink header flag NLM_F_APPEND (libc crate constant). -/
def NLM_F_APPEND : Nat := 0x800

/-- Return value of a netlink callback signalling success (mnl crate constant MNL_CB_OK). -/
def MNL_CB_OK : Int := 1

/-- Return value of a netlink callback signalling an error (mnl crate constant MNL_CB_ERROR). -/
def MNL_CB_ERROR : Int := -1

/-- Attribute keys of a native nftnl rule object, from the nftnl-sys
bindings (NFTNL_RULE_FAMILY, NFTNL_RULE_TABLE, NFTNL_RULE_CHAIN,
NFTNL_RULE_HANDLE, NFTNL_RULE_POSITION, NFTNL_RULE_USERDATA). -/
inductive RuleAttr
  | family
  | table
  | chain
  | handle
  | position
  | userdata
deriving DecidableEq

/-- Values stored under a rule attribute: a 32-bit integer, a 64-bit
integer, or the bytes of a C string (bytes up to but excluding the NUL
terminator). -/
inductive AttrVal
  | u32 (v : Nat)
  | u64 (v : Nat)
  | str (s : List Nat)
deriving DecidableEq

/-- Content of one native nftnl_rule object: the attribute map (most
recent setting first, as a shadowing association list) and the ordered
expression list.  Expressions are opaque fragments, modelled as Nat. -/
structure NftnlRule where
  attrs : List (RuleAttr × AttrVal)
  exprs : List Nat
deriving DecidableEq

/-- Content of a freshly allocated nftnl_rule object: no attribute set,
no expression. -/
def emptyRule : NftnlRule := { attrs := [], exprs := [] }

/-- Models sys::nftnl_rule_set_u32: stores a 32-bit value under the key.
The value parameter of the C function is a u32, so the passed Nat is
reduced mod 2 ^ 32 (this captures the `as u32` casts at the call sites). -/
def nftnl_rule_set_u32 (r : NftnlRule) (k : RuleAttr) (v : Nat) : NftnlRule :=
  { r with attrs := (k, AttrVal.u32 (v % 2 ^ 32)) :: r.attrs }

/-- Models sys::nftnl_rule_set_u64: stores a 64-bit value under the key. -/
def nftnl_rule_set_u64 (r : NftnlRule) (k : RuleAttr) (v : Nat) : NftnlRule :=
  { r with attrs := (k, AttrVal.u64 (v % 2 ^ 64)) :: r.attrs }

/-- Models sys::nftnl_rule_set_str: copies the C string (the library
duplicates the bytes, so the stored value is a snapshot). -/
def nftnl_rule_set_str (r : NftnlRule) (k : RuleAttr) (s : List Nat) : NftnlRule :=
  { r with attrs := (k, AttrVal.str s) :: r.attrs }

/-- Models sys::nftnl_rule_get_u64: the external libnftnl library returns
the stored 64-bit value, or 0 when the attribute was never set. -/
def nftnl_rule_get_u64 (r : NftnlRule) (k : RuleAttr) : Nat :=
  match r.attrs.lookup k with
  | some (AttrVal.u64 v) => v
  | _ => 0

/-- Models sys::nftnl_rule_get_str: the external libnftnl library returns
a pointer to the stored string, or null (here `none`) when the attribute
was never set. -/
def nftnl_rule_get_str (r : NftnlRule) (k : RuleAttr) : Option (List Nat) :=
  match r.attrs.lookup k with
  | some (AttrVal.str s) => some s
  | _ => none

/-- Models sys::nftnl_rule_add_expr: appends one expression fragment to
the ordered expression list of the rule. -/
def nftnl_rule_add_expr (r : NftnlRule) (e : Nat) : NftnlRule :=
  { r with exprs := r.exprs ++ [e] }

/-- Modelled from the spec: Table (src/nftnl/src/table.rs is not under
src/).  A table names an address-family-scoped namespace; attributes are
the address family and a short textual name (C string bytes). -/
structure Table where
  family : Nat
  name : List Nat
deriving DecidableEq

/-- Modelled from the spec: Chain (src/nftnl/src/chain.rs is not under
src/).  A chain is owned by a Table and has a name; `chainId` models the
object identity of the underlying native chain object, so that the
PartialEq of Chain (Chain identity per the spec) is equality of values
including `chainId`. -/
structure Chain where
  chainId : Nat
  table : Table
  name : List Nat
deriving DecidableEq

/-- Models chain.get_table(): read access to the owning table. -/
def Chain.get_table (c : Chain) : Table := c.table

/-- Models chain.get_name(): the name bytes of the chain. -/
def Chain.get_name (c : Chain) : List Nat := c.name

/-- Models table.get_family(): the address family of the table. -/
def Table.get_family (t : Table) : Nat := t.family

/-- Models table.get_name(): the name bytes of the table. -/
def Table.get_name (t : Table) : List Nat := t.name

/-- Error taxonomy of the crate.  AllocationFailed models the failure of
the try_alloc macro; NetlinkAllocationFailed is query::Error as used in
the filter closure of list_rules_for_chain. -/
inductive NErr
  | AllocationFailed
  | NetlinkAllocationFailed
deriving DecidableEq

/-- Observable side effects on the native library, used to express
short-circuiting and resource release order. -/
inductive Event
  | allocOk (p : Nat)
  | allocFail
  | setField (a : RuleAttr)
  | buildPayload
  | free (p : Nat)
deriving DecidableEq

/-- The safe Rule wrapper of rule.rs: the native object pointer (object
identity), the content of the native object it exclusively owns, and the
shared reference to the owning Chain. -/
structure Rule where
  ptr : Nat
  obj : NftnlRule
  chain : Chain
deriving DecidableEq

/-- Models Rule::from_raw: wraps an already-parsed native object,
attaching the known parent chain. -/
def Rule.from_raw (p : Nat) (obj : NftnlRule) (c : Chain) : Rule :=
  { ptr := p, obj := obj, chain := c }

/-- Models Rule::new.  The allocation outcome of sys::nftnl_rule_alloc is
the `alloc` oracle (`none` is a null return).  The try_alloc macro is in
src/nftnl/src/lib.rs, not under src/; modelled from the spec: it fails
with AllocationFailed on a null return, short-circuiting before any field
is set.  On success the three identifying fields are set in source order:
family (set_u32, with the `as u32` cast), table name (set_str), chain
name (set_str), each copied from the current state of the chain.  The
event list records the observable native calls. -/
def Rule.new (c : Chain) (alloc : Option Nat) : Except NErr Rule × List Event :=
  match alloc with
  | none => (Except.error NErr.AllocationFailed, [Event.allocFail])
  | some p =>
    let o1 := nftnl_rule_set_u32 emptyRule RuleAttr.family c.get_table.get_family
    let o2 := nftnl_rule_set_str o1 RuleAttr.table c.get_table.get_name
    let o3 := nftnl_rule_set_str o2 RuleAttr.chain c.get_name
    (Except.ok { ptr := p, obj := o3, chain := c },
     [Event.allocOk p, Event.setField RuleAttr.family, Event.setField RuleAttr.table,
      Event.setField RuleAttr.chain])

/-- Models Rule::get_position. -/
def Rule.get_position (r : Rule) : Nat :=
  nftnl_rule_get_u64 r.obj RuleAttr.position

/-- Models Rule::set_position. -/
def Rule.set_position (r : Rule) (v : Nat) : Rule :=
  { r with obj := nftnl_rule_set_u64 r.obj RuleAttr.position v }

/-- Models Rule::get_handle. -/
def Rule.get_handle (r : Rule) : Nat :=
  nftnl_rule_get_u64 r.obj RuleAttr.handle

/-- Models Rule::set_handle. -/
def Rule.set_handle (r : Rule) (v : Nat) : Rule :=
  { r with obj := nftnl_rule_set_u64 r.obj RuleAttr.handle v }

/-- Models Rule::add_expr: appends the encoded fragment of one expression
to the native rule. -/
def Rule.add_expr (r : Rule) (e : Nat) : Rule :=
  { r with obj := nftnl_rule_add_expr r.obj e }

/-- Models Rule::get_chain: clones the shared reference to the chain. -/
def Rule.get_chain (r : Rule) : Chain := r.chain

/-- Models Rule::get_userdata: null pointer (attribute never set) gives
None, otherwise the stored C string bytes. -/
def Rule.get_userdata (r : Rule) : Option (List Nat) :=
  nftnl_rule_get_str r.obj RuleAttr.userdata

/-- Models Rule::set_userdata. -/
def Rule.set_userdata (r : Rule) (d : List Nat) : Rule :=
  { r with obj := nftnl_rule_set_str r.obj RuleAttr.userdata d }

/-- Models PartialEq for Rule: get_chain of both compared (Chain identity
per the spec, see the Chain doc), then get_handle of both compared. -/
def ruleEq (a b : Rule) : Bool :=
  (a.get_chain == b.get_chain) && (a.get_handle == b.get_handle)

/-- Byte string representable as a C string: every byte fits in 8 bits
and no interior NUL. -/
def IsCStr (d : List Nat) : Prop := (∀ b ∈ d, b < 256) ∧ 0 ∉ d

instance (d : List Nat) : Decidable (IsCStr d) := by
  unfold IsCStr; infer_instance

/-- Mutating operations of the Rule API, used to state what later calls
may rewrite. -/
inductive RuleOp
  | setPos (v : Nat)
  | setHandle (v : Nat)
  | setUserdata (d : List Nat)
  | addExpr (e : Nat)
deriving DecidableEq

/-- Applies one Rule API operation. -/
def applyRuleOp (r : Rule) : RuleOp → Rule
  | RuleOp.setPos v => r.set_position v
  | RuleOp.setHandle v => r.set_handle v
  | RuleOp.setUserdata d => r.set_userdata d
  | RuleOp.addExpr e => r.add_expr e

/-- Tests whether an operation is a set_userdata call. -/
def touchesUserdata : RuleOp → Bool
  | RuleOp.setUserdata _ => true
  | _ => false

/-- Modelled from the spec: MsgType (src/nftnl/src/lib.rs, not under
src/) names the intended operation of a message, Add or Del. -/
inductive MsgType
  | Add
  | Del
deriving DecidableEq

/-- Netlink message header as built by sys::nftnl_nlmsg_build_hdr from
its four arguments: message type, address family, flags, sequence
number. -/
structure Nlmsghdr where
  nlmsg_type : Nat
  nlmsg_family : Nat
  nlmsg_flags : Nat
  nlmsg_seq : Nat
deriving DecidableEq

/-- One netlink message written into the caller buffer: the header
followed by the serialized payload of the native rule object
(sys::nftnl_rule_nlmsg_build_payload serializes the current field state
of the object). -/
structure NlMsgOut where
  hdr : Nlmsghdr
  payload : NftnlRule
deriving DecidableEq

/-- Models NlMsg::write for Rule: picks the opcode by operation, the
flags by operation (CREATE or APPEND or EXCL for Add, nothing for Del,
always or-ed with ACK; the `as u16` casts are the `% 2 ^ 16`), builds the
header from the opcode, the family of the owning table of the chain
(cast to u16), the flags and the verbatim u32 sequence number, then
serializes the rule payload after the header. -/
def Rule.write (r : Rule) (seq : Nat) (m : MsgType) : NlMsgOut :=
  let t : Nat :=
    match m with
    | MsgType.Add => NFT_MSG_NEWRULE
    | MsgType.Del => NFT_MSG_DELRULE
  let flags : Nat :=
    (match m with
     | MsgType.Add => (NLM_F_CREATE ||| NLM_F_APPEND ||| NLM_F_EXCL) % 2 ^ 16
     | MsgType.Del => 0) ||| (NLM_F_ACK % 2 ^ 16)
  { hdr :=
      { nlmsg_type := t % 2 ^ 16
        nlmsg_family := r.chain.get_table.get_family % 2 ^ 16
        nlmsg_flags := flags
        nlmsg_seq := seq }
    payload := r.obj }

/-- One response message delivered by the transport to the parse
callback: the return code of sys::nftnl_rule_nlmsg_parse on it (negative
is a parse error) and, when parsing succeeds, the content the parse
routine fills into the fresh native object. -/
structure RespMsg where
  parseResult : Int
  content : NftnlRule
deriving DecidableEq

/-- Models get_rules_cb of rule.rs.  The allocation outcome of
sys::nftnl_rule_alloc for this invocation is the `alloc` oracle.  Null
allocation returns MNL_CB_ERROR.  A negative parse result logs the
failure, frees the fresh native object and propagates the native error
code.  On success the parsed rule is wrapped with Rule::from_raw and
appended to the accumulated vector, returning MNL_CB_OK.  The result is
(return code, vector after the call, native events). -/
def get_rules_cb (alloc : Option Nat) (msg : RespMsg) (chain : Chain)
    (rules : List Rule) : Int × List Rule × List Event :=
  match alloc with
  | none => (MNL_CB_ERROR, rules, [Event.allocFail])
  | some p =>
    if msg.parseResult < 0 then
      (msg.parseResult, rules, [Event.allocOk p, Event.free p])
    else
      (MNL_CB_OK, rules ++ [Rule.from_raw p msg.content chain],
       [Event.allocOk p])

/-- Tests that one callback invocation succeeds: the per-message
allocation is non-null and the parse result is non-negative. -/
def cbStepOk (x : Option Nat × RespMsg) : Prop :=
  x.1 ≠ none ∧ 0 ≤ x.2.parseResult

instance (x : Option Nat × RespMsg) : Decidable (cbStepOk x) := by
  unfold cbStepOk; infer_instance

/-- Modelled from the spec: the response-processing loop of
query::list_objects_with_data (src/nftnl/src/query.rs, not under src/).
The transport delivers the finite response stream; each message invokes
the callback with a fresh allocation outcome; any callback return value
other than MNL_CB_OK aborts the whole list operation, the caller
receiving the failing return code as an error; on stream completion the
accumulated sequence is returned. -/
def runRulesCb (chain : Chain) :
    List (Option Nat × RespMsg) → List Rule → Except Int (List Rule)
  | [], acc => Except.ok acc
  | (a, m) :: rest, acc =>
    let res := get_rules_cb a m chain acc
    if res.1 = MNL_CB_OK then runRulesCb chain rest res.2.1
    else Except.error res.1

/-- The temporary filter object built by the filter closure of
list_rules_for_chain: table name, family (set_u32 with the `as u32`
cast) and chain name are set on a fresh rule, in source order, and
nothing else. -/
def filterRule (c : Chain) : NftnlRule :=
  nftnl_rule_set_str
    (nftnl_rule_set_u32
      (nftnl_rule_set_str emptyRule RuleAttr.table c.get_table.get_name)
      RuleAttr.family c.get_table.get_family)
    RuleAttr.chain c.get_name

/-- Models the filter closure of list_rules_for_chain: allocates a fresh
rule (NetlinkAllocationFailed on a null return), sets exactly the three
identifying fields of the target chain, serializes the payload of the
temporary object into the request header, then frees the temporary
object.  The result carries the serialized payload and the native
events. -/
def ruleFilterStep (c : Chain) (alloc : Option Nat) :
    Except NErr NftnlRule × List Event :=
  match alloc with
  | none => (Except.error NErr.NetlinkAllocationFailed, [Event.allocFail])
  | some p =>
    (Except.ok (filterRule c),
     [Event.allocOk p, Event.buildPayload, Event.free p])

/-- Models list_rules_for_chain, composed from the filter step and the
response-processing loop: the request is built with the filter payload of
the chain, then the callback loop collects the responses. -/
def list_rules_for_chain (c : Chain) (filterAlloc : Option Nat)
    (stream : List (Option Nat × RespMsg)) : Except Int (List Rule) :=
  match ruleFilterStep c filterAlloc with
  | (Except.error _, _) => Except.error MNL_CB_ERROR
  | (Except.ok _, _) => runRulesCb c stream []

/-- Buffer capacity of Rule::get_str: vec with 4096 zero bytes. -/
def GET_STR_BUFSIZ : Nat := 4096

/-- Models the external sys::nftnl_rule_snprintf with standard snprintf
semantics: given writable size `size`, it writes min(size - 1, length of
the rendering) rendering bytes followed by a NUL terminator, touching at
most `size` bytes of the buffer and leaving the rest unchanged; with
size 0 it writes nothing. -/
def nftnl_rule_snprintf (buf : List Nat) (size : Nat) (rendering : List Nat) :
    List Nat :=
  if size = 0 then buf
  else
    rendering.take (min (size - 1) rendering.length) ++
      0 :: buf.drop (min (size - 1) rendering.length + 1)

/-- The buffer state after Rule::get_str runs the native print routine:
a 4096-byte zero buffer, printed into with writable size 4096 - 1 (the
source passes descr_buf.len() - 1).  The rendering the library would
produce for the rule is the `render` oracle applied to the native
object. -/
def ruleStrBuf (render : NftnlRule → List Nat) (r : Rule) : List Nat :=
  nftnl_rule_snprintf (List.replicate GET_STR_BUFSIZ 0) (GET_STR_BUFSIZ - 1)
    (render r.obj)

/-- Models Rule::get_str: CStr::from_ptr reads the buffer up to the
first NUL, and that C string is returned (as its byte content). -/
def Rule.get_str (render : NftnlRule → List Nat) (r : Rule) : List Nat :=
  (ruleStrBuf render r).takeWhile (fun b => b != 0)

/-- The rules parsed out of a response stream: one per message whose
allocation oracle is non-null, wrapped with Rule::from_raw. -/
def parsedRules (c : Chain) (stream : List (Option Nat × RespMsg)) : List Rule :=
  stream.filterMap (fun x => x.1.map (fun p => Rule.from_raw p x.2.content c))

/-- Concrete table for counterexamples and witnesses. -/
def cexTable : Table := { family := 2, name := [102, 119] }

/-- Concrete chain for counterexamples and witnesses. -/
def cexChain : Chain := { chainId := 1, table := cexTable, name := [99, 48] }

/-- First of two distinct Rule objects (distinct native pointers) with no
handle set, owned by the same chain. -/
def cexRuleA : Rule := { ptr := 100, obj := emptyRule, chain := cexChain }

/-- Second of the two distinct Rule objects. -/
def cexRuleB : Rule := { ptr := 101, obj := emptyRule, chain := cexChain }

/-- Concrete table for witnesses. -/
def wTable : Table := { family := 2, name := [116, 98] }

/-- Concrete chain for witnesses. -/
def wChain : Chain := { chainId := 3, table := wTable, name := [99, 104] }

/-- The rule Rule::new builds from wChain at pointer 5. -/
def wRuleNew : Rule :=
  { ptr := 5
    obj := nftnl_rule_set_str
      (nftnl_rule_set_str (nftnl_rule_set_u32 emptyRule RuleAttr.family 2)
        RuleAttr.table [116, 98])
      RuleAttr.chain [99, 104]
    chain := wChain }

/-- A response message whose parse fails with native code -5. -/
def wMsgBad : RespMsg := { parseResult := -5, content := emptyRule }

/-- A response message whose parse succeeds. -/
def wMsgOk : RespMsg := { parseResult := 0, content := emptyRule }

/-- A response stream of three valid messages followed by one malformed
message. -/
def wStreamBad : List (Option Nat × RespMsg) :=
  [(some 1, wMsgOk), (some 2, wMsgOk), (some 3, wMsgOk), (some 4, wMsgBad)]

/-- A response stream of two valid messages. -/
def wStreamGood : List (Option Nat × RespMsg) :=
  [(some 1, wMsgOk), (some 2, wMsgOk)]

/-- A constant rendering oracle for the get_str witness. -/
def wRender : NftnlRule → List Nat := fun _ => [104, 105]

/-!  Theorems. -/

/-- C1: NlMsg::write for a Rule with operation Add builds a header with
message type NFT_MSG_NEWRULE and flags NLM_F_CREATE, NLM_F_APPEND,
NLM_F_EXCL and NLM_F_ACK or-ed together; with operation Del it builds a
header with message type NFT_MSG_DELRULE and flags NLM_F_ACK only; in
both cases the header carries the address family of the table owning the
chain of the rule (as u16) and the caller-supplied sequence number
verbatim, followed by the serialized payload of the rule. -/
theorem rule_write_msg (r : Rule) (seq : Nat) :
    r.write seq MsgType.Add =
      { hdr :=
          { nlmsg_type := NFT_MSG_NEWRULE
            nlmsg_family := r.chain.get_table.get_family % 2 ^ 16
            nlmsg_flags := NLM_F_CREATE ||| NLM_F_APPEND ||| NLM_F_EXCL ||| NLM_F_ACK
            nlmsg_seq := seq }
        payload := r.obj } ∧
    r.write seq MsgType.Del =
      { hdr :=
          { nlmsg_type := NFT_MSG_DELRULE
            nlmsg_family := r.chain.get_table.get_family % 2 ^ 16
            nlmsg_flags := NLM_F_ACK
            nlmsg_seq := seq }
        payload := r.obj } := by
  exact ⟨rfl, rfl⟩

/-- C2 counterexample: two distinct Rule objects (different native
pointers), both with handle 0, owned by the same Chain, DO compare equal
under the PartialEq of Rule; the claim says they are never equal. -/
theorem rule_eq_handle_zero_cex :
    ruleEq cexRuleA cexRuleB = true ∧ cexRuleA ≠ cexRuleB ∧
    cexRuleA.get_handle = 0 ∧ cexRuleB.get_handle = 0 ∧
    cexRuleA.get_chain = cexRuleB.get_chain := by
  decide

/-- C2 (amended): two Rule values compare equal exactly when their
owning chains are the same Chain and their handles are equal; in
particular two distinct Rule objects with handle 0 from the same Chain
compare equal. -/
theorem rule_eq_iff (a b : Rule) :
    ruleEq a b = true ↔ (a.get_chain = b.get_chain ∧ a.get_handle = b.get_handle) := by
  simp [ruleEq]

/-- C8: equality of Rule values is an equivalence relation: reflexive,
symmetric and transitive. -/
theorem rule_eq_equivalence : Equivalence (fun a b : Rule => ruleEq a b = true) := by
  constructor
  · intro a
    simp [ruleEq]
  · intro a b h
    simp only [ruleEq, Bool.and_eq_true, beq_iff_eq] at h ⊢
    exact ⟨h.1.symm, h.2.symm⟩
  · intro a b c h1 h2
    simp only [ruleEq, Bool.and_eq_true, beq_iff_eq] at h1 h2 ⊢
    exact ⟨h1.1.trans h2.1, h1.2.trans h2.2⟩

/-- C4: when the native allocator returns null, Rule::new fails with
AllocationFailed; the event list is exactly the failed allocation, so no
identifying field is set and no destructor runs on the invalid handle,
and no wrapper is constructed (the error carries none); when the
allocator returns a valid handle p, construction succeeds with a wrapper
owning p whose three identifying fields were set from the chain. -/
theorem rule_new_alloc_failure (c : Chain) (p : Nat) :
    Rule.new c none = (Except.error NErr.AllocationFailed, [Event.allocFail]) ∧
    (Rule.new c (some p)).1 =
      Except.ok
        { ptr := p
          obj := nftnl_rule_set_str
            (nftnl_rule_set_str
              (nftnl_rule_set_u32 emptyRule RuleAttr.family c.get_table.get_family)
              RuleAttr.table c.get_table.get_name)
            RuleAttr.chain c.get_name
          chain := c } := by
  exact ⟨rfl, rfl⟩

/-- C9: the filter payload serialized by list_rules_for_chain is the
payload of a temporary rule carrying exactly the identifying triple of
the chain (table name, family, chain name) and nothing else (no handle,
no position, no userdata, no expression), and the temporary object is
freed after its payload is serialized. -/
theorem list_rules_filter_exact (c : Chain) (p : Nat) :
    ruleFilterStep c (some p) =
      (Except.ok (filterRule c),
       [Event.allocOk p, Event.buildPayload, Event.free p]) ∧
    (filterRule c).attrs.lookup RuleAttr.table = some (AttrVal.str c.get_table.get_name) ∧
    (filterRule c).attrs.lookup RuleAttr.family
      = some (AttrVal.u32 (c.get_table.get_family % 2 ^ 32)) ∧
    (filterRule c).attrs.lookup RuleAttr.chain = some (AttrVal.str c.get_name) ∧
    (filterRule c).attrs.lookup RuleAttr.handle = none ∧
    (filterRule c).attrs.lookup RuleAttr.position = none ∧
    (filterRule c).attrs.lookup RuleAttr.userdata = none ∧
    (filterRule c).exprs = [] := by
  exact ⟨rfl, rfl, rfl, rfl, rfl, rfl, rfl, rfl⟩

/-- Helper: no Rule API operation rewrites the family, table-name or
chain-name attribute of the native object. -/
theorem lookup_applyRuleOp_identifying (r : Rule) (op : RuleOp) (k : RuleAttr)
    (hk : k = RuleAttr.family ∨ k = RuleAttr.table ∨ k = RuleAttr.chain) :
    (applyRuleOp r op).obj.attrs.lookup k = r.obj.attrs.lookup k := by
  rcases op with v | v | d | e <;> rcases hk with h | h | h <;> subst h <;> rfl

/-- Helper: a sequence of Rule API operations leaves the three
identifying attributes untouched. -/
theorem lookup_foldl_identifying (ops : List RuleOp) (r : Rule) (k : RuleAttr)
    (hk : k = RuleAttr.family ∨ k = RuleAttr.table ∨ k = RuleAttr.chain) :
    (List.foldl applyRuleOp r ops).obj.attrs.lookup k = r.obj.attrs.lookup k := by
  induction ops generalizing r with
  | nil => rfl
  | cons op rest ih =>
    rw [List.foldl_cons, ih (applyRuleOp r op), lookup_applyRuleOp_identifying r op k hk]

/-- C3: Rule::new snapshots the family, table name and chain name of the
chain at construction time into the native object; a Rule built from a
chain keeps exactly those values after any later sequence of Rule API
operations (set_position, set_handle, set_userdata, add_expr), and the
snapshot is by value, independent of any later mutation of the Chain or
Table. -/
theorem rule_new_snapshot (c : Chain) (p : Nat) (r : Rule) (ops : List RuleOp)
    (h : (Rule.new c (some p)).1 = Except.ok r) :
    (List.foldl applyRuleOp r ops).obj.attrs.lookup RuleAttr.family
      = some (AttrVal.u32 (c.get_table.get_family % 2 ^ 32)) ∧
    (List.foldl applyRuleOp r ops).obj.attrs.lookup RuleAttr.table
      = some (AttrVal.str c.get_table.get_name) ∧
    (List.foldl applyRuleOp r ops).obj.attrs.lookup RuleAttr.chain
      = some (AttrVal.str c.get_name) := by
  simp only [Rule.new, Except.ok.injEq] at h
  subst h
  refine ⟨?_, ?_, ?_⟩
  · rw [lookup_foldl_identifying ops _ RuleAttr.family (Or.inl rfl)]
    rfl
  · rw [lookup_foldl_identifying ops _ RuleAttr.table (Or.inr (Or.inl rfl))]
    rfl
  · rw [lookup_foldl_identifying ops _ RuleAttr.chain (Or.inr (Or.inr rfl))]
    rfl

/-- Witness for C3 at a concrete chain, pointer and operation list. -/
theorem rule_new_snapshot_witness :
    (List.foldl applyRuleOp wRuleNew [RuleOp.setHandle 9, RuleOp.setPos 4]).obj.attrs.lookup
        RuleAttr.family = some (AttrVal.u32 (2 % 2 ^ 32)) ∧
    (List.foldl applyRuleOp wRuleNew [RuleOp.setHandle 9, RuleOp.setPos 4]).obj.attrs.lookup
        RuleAttr.table = some (AttrVal.str [116, 98]) ∧
    (List.foldl applyRuleOp wRuleNew [RuleOp.setHandle 9, RuleOp.setPos 4]).obj.attrs.lookup
        RuleAttr.chain = some (AttrVal.str [99, 104]) :=
  rule_new_snapshot wChain 5 wRuleNew [RuleOp.setHandle 9, RuleOp.setPos 4] rfl

/-- Helper: an operation other than set_userdata does not rewrite the
userdata attribute. -/
theorem lookup_applyRuleOp_userdata (r : Rule) (op : RuleOp)
    (hop : touchesUserdata op = false) :
    (applyRuleOp r op).obj.attrs.lookup RuleAttr.userdata
      = r.obj.attrs.lookup RuleAttr.userdata := by
  rcases op with v | v | d | e
  · rfl
  · rfl
  · simp [touchesUserdata] at hop
  · rfl

/-- Helper: a sequence of operations free of set_userdata leaves the
userdata attribute untouched. -/
theorem lookup_foldl_userdata (ops : List RuleOp) (r : Rule)
    (hops : ops.all (fun o => !touchesUserdata o) = true) :
    (List.foldl applyRuleOp r ops).obj.attrs.lookup RuleAttr.userdata
      = r.obj.attrs.lookup RuleAttr.userdata := by
  induction ops generalizing r with
  | nil => rfl
  | cons op rest ih =>
    rw [List.all_cons, Bool.and_eq_true] at hops
    rw [List.foldl_cons, ih _ hops.2,
      lookup_applyRuleOp_userdata r op (by simpa using hops.1)]

/-- C6: get_userdata of a Rule on which set_userdata was never called
(freshly constructed, then any operations none of which is set_userdata)
returns None, not an error; and for any byte string representable as a C
string, set_userdata followed by get_userdata returns exactly that byte
string. -/
theorem rule_userdata_roundtrip (c : Chain) (p : Nat) (r : Rule) (ops : List RuleOp)
    (d : List Nat) (hr : (Rule.new c (some p)).1 = Except.ok r)
    (hops : ops.all (fun o => !touchesUserdata o) = true) (_hd : IsCStr d) :
    (List.foldl applyRuleOp r ops).get_userdata = none ∧
    ∀ r2 : Rule, (r2.set_userdata d).get_userdata = some d := by
  constructor
  · simp only [Rule.new, Except.ok.injEq] at hr
    subst hr
    unfold Rule.get_userdata nftnl_rule_get_str
    rw [lookup_foldl_userdata ops _ hops]
    rfl
  · intro r2
    rfl

/-- Witness for C6 at a concrete rule, operation list and byte string. -/
theorem rule_userdata_roundtrip_witness :
    (List.foldl applyRuleOp wRuleNew [RuleOp.setHandle 9]).get_userdata = none ∧
    ∀ r2 : Rule, (r2.set_userdata [97, 98]).get_userdata = some [97, 98] :=
  rule_userdata_roundtrip wChain 5 wRuleNew [RuleOp.setHandle 9] [97, 98] rfl rfl
    (by decide)

/-- C10: on both error exits of get_rules_cb (null allocation, negative
parse result) the accumulated rule vector is returned exactly as it was;
on the parse-error path the freshly allocated native object is freed
before the callback returns and the native error code is the return
value; on the null-allocation path the return value is MNL_CB_ERROR. -/
theorem get_rules_cb_error_paths (c : Chain) (rules : List Rule) (m : RespMsg)
    (p : Nat) (hm : m.parseResult < 0) :
    (∀ m2 : RespMsg,
      get_rules_cb none m2 c rules = (MNL_CB_ERROR, rules, [Event.allocFail])) ∧
    (get_rules_cb (some p) m c rules).2.1 = rules ∧
    (get_rules_cb (some p) m c rules).2.2 = [Event.allocOk p, Event.free p] ∧
    (get_rules_cb (some p) m c rules).1 = m.parseResult := by
  have hcb : get_rules_cb (some p) m c rules
      = (m.parseResult, rules, [Event.allocOk p, Event.free p]) := by
    simp [get_rules_cb, hm]
  exact ⟨fun m2 => rfl, by rw [hcb], by rw [hcb], by rw [hcb]⟩

/-- Witness for C10 at a concrete message with parse code -5. -/
theorem get_rules_cb_error_paths_witness :
    (∀ m2 : RespMsg,
      get_rules_cb none m2 wChain [] = (MNL_CB_ERROR, [], [Event.allocFail])) ∧
    (get_rules_cb (some 7) wMsgBad wChain []).2.1 = [] ∧
    (get_rules_cb (some 7) wMsgBad wChain []).2.2 = [Event.allocOk 7, Event.free 7] ∧
    (get_rules_cb (some 7) wMsgBad wChain []).1 = wMsgBad.parseResult :=
  get_rules_cb_error_paths wChain [] wMsgBad 7 (by decide)

/-- Helper: when every callback invocation succeeds, the response loop
returns the accumulator extended by all parsed rules. -/
theorem runRulesCb_ok (c : Chain) (stream : List (Option Nat × RespMsg))
    (h : ∀ x ∈ stream, cbStepOk x) (acc : List Rule) :
    runRulesCb c stream acc = Except.ok (acc ++ parsedRules c stream) := by
  induction stream generalizing acc with
  | nil => simp [runRulesCb, parsedRules]
  | cons x rest ih =>
    obtain ⟨a, m⟩ := x
    obtain ⟨ha, hm⟩ := h (a, m) (List.mem_cons_self _ _)
    obtain ⟨p, rfl⟩ := Option.ne_none_iff_exists'.mp ha
    have hcb : get_rules_cb (some p) m c acc
        = (MNL_CB_OK, acc ++ [Rule.from_raw p m.content c], [Event.allocOk p]) := by
      simp [get_rules_cb, not_lt.mpr hm]
    simp only [runRulesCb, hcb]
    rw [if_true,
      ih (fun y hy => h y (List.mem_cons_of_mem _ hy)) (acc ++ [Rule.from_raw p m.content c])]
    simp [parsedRules, List.filterMap_cons]

/-- Helper: when some callback invocation fails, the response loop
returns an error, whatever was accumulated so far. -/
theorem runRulesCb_err (c : Chain) (stream : List (Option Nat × RespMsg))
    (h : ∃ x ∈ stream, ¬ cbStepOk x) (acc : List Rule) :
    ∃ e, runRulesCb c stream acc = Except.error e := by
  induction stream generalizing acc with
  | nil => simp at h
  | cons x rest ih =>
    obtain ⟨a, m⟩ := x
    by_cases hx : cbStepOk (a, m)
    · obtain ⟨ha, hm⟩ := hx
      obtain ⟨p, rfl⟩ := Option.ne_none_iff_exists'.mp ha
      have hcb : get_rules_cb (some p) m c acc
          = (MNL_CB_OK, acc ++ [Rule.from_raw p m.content c], [Event.allocOk p]) := by
        simp [get_rules_cb, not_lt.mpr hm]
      simp only [runRulesCb, hcb]
      rw [if_true]
      apply ih
      obtain ⟨y, hy, hny⟩ := h
      rcases List.mem_cons.mp hy with h1 | h2
      · exact absurd (h1 ▸ ⟨ha, hm⟩) hny
      · exact ⟨y, h2, hny⟩
    · unfold cbStepOk at hx
      push_neg at hx
      cases a with
      | none =>
        refine ⟨MNL_CB_ERROR, ?_⟩
        simp only [runRulesCb, get_rules_cb]
        rw [if_neg (by decide)]
      | some p =>
        have hm : m.parseResult < 0 := hx (by simp)
        have hcb : get_rules_cb (some p) m c acc
            = (m.parseResult, acc, [Event.allocOk p, Event.free p]) := by
          simp [get_rules_cb, hm]
        refine ⟨m.parseResult, ?_⟩
        simp only [runRulesCb, hcb]
        rw [if_neg (by simp only [MNL_CB_OK]; omega)]

/-- C5: if any single response message of the stream fails (null
allocation or negative parse result), the whole list operation returns
an error and the caller receives zero result objects (an error carries
no rules: no partial list); if every message succeeds the caller
receives the complete sequence of all parsed rules; on a parse error the
callback propagates the native error code as its return value. -/
theorem list_rules_all_or_error (c : Chain) (fa : Option Nat) (p0 : Nat)
    (stream : List (Option Nat × RespMsg)) :
    ((∃ x ∈ stream, ¬ cbStepOk x) →
      ∃ e, list_rules_for_chain c fa stream = Except.error e) ∧
    ((∀ x ∈ stream, cbStepOk x) →
      list_rules_for_chain c (some p0) stream = Except.ok (parsedRules c stream)) ∧
    (∀ p m acc, m.parseResult < 0 → (get_rules_cb (some p) m c acc).1 = m.parseResult) := by
  refine ⟨?_, ?_, ?_⟩
  · intro h
    cases fa with
    | none => exact ⟨MNL_CB_ERROR, rfl⟩
    | some q => exact runRulesCb_err c stream h []
  · intro h
    exact runRulesCb_ok c stream h []
  · intro p m acc hm
    simp [get_rules_cb, hm]

/-- Witness for C5: a stream of three valid responses followed by one
malformed response yields an error, and a fully valid stream yields the
complete parsed sequence. -/
theorem list_rules_all_or_error_witness :
    (∃ e, list_rules_for_chain wChain (some 1) wStreamBad = Except.error e) ∧
    list_rules_for_chain wChain (some 1) wStreamGood
      = Except.ok (parsedRules wChain wStreamGood) := by
  constructor
  · exact (list_rules_all_or_error wChain (some 1) 1 wStreamBad).1 (by decide)
  · exact (list_rules_all_or_error wChain (some 1) 1 wStreamGood).2.1 (by decide)

/-- Helper: takeWhile with the nonzero test keeps a list free of zero
bytes whole. -/
theorem takeWhile_ne_zero_eq (A : List Nat) (hA : ∀ b ∈ A, b ≠ 0) :
    A.takeWhile (fun b => b != 0) = A := by
  induction A with
  | nil => rfl
  | cons a t ih =>
    have ha : (a != 0) = true := by
      simpa using hA a (List.mem_cons_self a t)
    simp [List.takeWhile_cons, ha, ih fun b hb => hA b (List.mem_cons_of_mem a hb)]

/-- Helper: the buffer state after get_str runs the print routine is the
truncated rendering, a NUL, then untouched zero bytes up to 4096. -/
theorem ruleStrBuf_eq (render : NftnlRule → List Nat) (r : Rule) :
    ruleStrBuf render r
      = (render r.obj).take (min 4094 (render r.obj).length)
          ++ List.replicate (4096 - min 4094 (render r.obj).length) 0 := by
  have hw : min 4094 (render r.obj).length ≤ 4094 := min_le_left _ _
  simp only [ruleStrBuf, nftnl_rule_snprintf, GET_STR_BUFSIZ]
  norm_num
  rw [← List.replicate_succ]
  have harith : 4096 - (min 4094 (render r.obj).length + 1) + 1
      = 4096 - min 4094 (render r.obj).length := by omega
  rw [harith]

/-- C7: get_str prints through a buffer of fixed capacity 4096 whose
writable size handed to the native print routine is capacity minus one;
the buffer keeps its full 4096 length, its final byte is always the NUL
terminator, the returned C string is the rendering truncated to at most
4094 content bytes, and so the rendering plus its terminator always fits
the capacity. -/
theorem rule_get_str_bounded (render : NftnlRule → List Nat) (r : Rule)
    (h0 : (0 : Nat) ∉ render r.obj) :
    (ruleStrBuf render r).length = GET_STR_BUFSIZ ∧
    (ruleStrBuf render r).getLast? = some 0 ∧
    Rule.get_str render r
      = (render r.obj).take (min 4094 (render r.obj).length) ∧
    (Rule.get_str render r).length + 1 ≤ GET_STR_BUFSIZ := by
  have hw : min 4094 (render r.obj).length ≤ 4094 := min_le_left _ _
  have hbuf := ruleStrBuf_eq render r
  have htake : ∀ b ∈ (render r.obj).take (min 4094 (render r.obj).length), b ≠ 0 :=
    fun b hb hbz => h0 (hbz ▸ List.take_subset _ _ hb)
  have hstr : Rule.get_str render r
      = (render r.obj).take (min 4094 (render r.obj).length) := by
    unfold Rule.get_str
    rw [hbuf, List.takeWhile_append, takeWhile_ne_zero_eq _ htake, if_pos rfl]
    have hm : 4096 - min 4094 (render r.obj).length
        = (4095 - min 4094 (render r.obj).length) + 1 := by omega
    rw [hm, List.replicate_succ]
    simp [List.takeWhile_cons]
  refine ⟨?_, ?_, hstr, ?_⟩
  · rw [hbuf]
    simp only [List.length_append, List.length_take, List.length_replicate,
      GET_STR_BUFSIZ]
    omega
  · rw [hbuf]
    have hm : 4096 - min 4094 (render r.obj).length
        = (4095 - min 4094 (render r.obj).length) + 1 := by omega
    rw [hm, List.replicate_succ', ← List.append_assoc]
    exact List.getLast?_concat _
  · rw [hstr]
    simp only [List.length_take, GET_STR_BUFSIZ]
    omega

/-- Witness for C7 at a concrete rendering free of NUL bytes. -/
theorem rule_get_str_bounded_witness :
    (ruleStrBuf wRender wRuleNew).length = GET_STR_BUFSIZ ∧
    (ruleStrBuf wRender wRuleNew).getLast? = some 0 ∧
    Rule.get_str wRender wRuleNew
      = (wRender wRuleNew.obj).take (min 4094 (wRender wRuleNew.obj).length) ∧
    (Rule.get_str wRender wRuleNew).length + 1 ≤ GET_STR_BUFSIZ :=
  rule_get_str_bounded wRender wRuleNew (by decide)

end Nftnl
